import Mathlib

/-!
Verification of the audioToolHeadless playback core.

This file is a shallow embedding, in Lean 4, of the parts of the
repository that the specification talks about:

* `QueueManager` (src/utils/queue-manager.ts): queue ordering
  (default / reverse / Fisher-Yates shuffle) and the loop-aware index
  arithmetic `getNextTrackIndex` / `getPreviousTrackIndex`.
* `AudioHeadless` (src/helpers/notifier.ts, second module): the
  controller state (playback queue, current index, shuffle snapshot,
  loop mode) and its public queue operations.
* the notifier (`notify` / `getLatestState`, first module of
  src/helpers/notifier.ts) and `EventEmitter.emit`
  (src/utils/event-emitter.ts).
* `Equalizer.setCustomEQ` (src/lib/equalizer.ts).

JavaScript specifics are embedded as follows: `Math.random`-driven index
choices become an explicit oracle `rnd : Nat → Nat`; thrown exceptions
become `Except` results (or an explicit "threw" flag when the code keeps
running up to the throw); async methods are modelled by their final state
since the control flow inside each call is sequential; subscriber
callbacks become callback identifiers whose throwing behaviour is an
explicit environment `thr : Nat → Bool`.
-/

/-- LoopMode from src/types (audio.types): OFF | SINGLE | QUEUE. -/
inductive LoopMode where
  | OFF
  | SINGLE
  | QUEUE
  deriving DecidableEq, Repr

/-- QueuePlaybackType from src/types: DEFAULT | REVERSE | SHUFFLE. -/
inductive QueuePlaybackType where
  | DEFAULT
  | REVERSE
  | SHUFFLE
  deriving DecidableEq, Repr

/-- MediaTrack (src/types/audio.types.ts); only the fields the verified
operations read are kept: identity is `id`, `source` drives the HLS
branch of `loadTrack`. -/
structure MediaTrack where
  id : String
  title : String
  source : String
  deriving DecidableEq, Repr

namespace QueueManager

/-- One iteration body of `shuffleArray`: read `shuffled[i]` and
`shuffled[j]`, and when both are defined write them back swapped.
Out-of-range reads give `undefined` and the body does nothing. -/
def listSwap (l : List α) (i j : Nat) : List α :=
  match l[i]?, l[j]? with
  | some a, some b => (l.set i b).set j a
  | _, _ => l

/-- The descending `for (let i = length - 1; i > 0; i--)` loop of
`shuffleArray`; the value passed as the second argument is the loop
variable `i`, and `rnd i` stands for `Math.floor(Math.random() * (i + 1))`. -/
def shuffleLoop (rnd : Nat → Nat) : List α → Nat → List α
  | l, 0 => l
  | l, i + 1 => shuffleLoop rnd (listSwap l (i + 1) (rnd (i + 1))) i

/-- `QueueManager.shuffleArray` (Fisher-Yates) with the random draws
abstracted into the oracle `rnd`. -/
def shuffleArray (rnd : Nat → Nat) (l : List α) : List α :=
  shuffleLoop rnd l (l.length - 1)

/-- The `switch (playbackType)` of `QueueManager.setQueue`, acting on the
copy of the input array (the `default` case coincides with `DEFAULT`). -/
def applyOrder (tracks : List MediaTrack) (playbackType : QueuePlaybackType)
    (rnd : Nat → Nat) : List MediaTrack :=
  match playbackType with
  | QueuePlaybackType.DEFAULT => tracks
  | QueuePlaybackType.REVERSE => tracks.reverse
  | QueuePlaybackType.SHUFFLE => shuffleArray rnd tracks

/-- `QueueManager.setQueue`: throws when `ValidationUtils.isValidArray`
rejects the input (for an actual array that means: it is empty),
otherwise stores the reordered copy, which is what `getQueue` then
returns. -/
def setQueue (tracks : List MediaTrack) (playbackType : QueuePlaybackType)
    (rnd : Nat → Nat) : Except String (List MediaTrack) :=
  if tracks.isEmpty then
    Except.error "QueueManager: Invalid tracks array provided"
  else
    Except.ok (applyOrder tracks playbackType rnd)

/-- `QueueManager.getNextTrackIndex`; `queueLength` is `this.queue.length`.
The TypeScript `default` case is unreachable for the three-valued
`LoopMode`. Indices are integers because `-1` is a sentinel. -/
def getNextTrackIndex (queueLength : Nat) (currentIndex : Int)
    (loopMode : LoopMode) : Int :=
  match loopMode with
  | LoopMode.SINGLE => currentIndex
  | LoopMode.QUEUE =>
      if currentIndex + 1 ≥ (queueLength : Int) then 0 else currentIndex + 1
  | LoopMode.OFF =>
      if currentIndex + 1 < (queueLength : Int) then currentIndex + 1 else -1

/-- `QueueManager.getPreviousTrackIndex`. -/
def getPreviousTrackIndex (currentIndex : Int) : Int :=
  if currentIndex > 0 then currentIndex - 1 else -1

theorem length_listSwap (l : List α) (i j : Nat) :
    (listSwap l i j).length = l.length := by
  unfold listSwap
  cases hi : l[i]? <;> cases hj : l[j]? <;> simp

theorem listSwap_perm [DecidableEq α] (l : List α) (i j : Nat) :
    (listSwap l i j).Perm l := by
  unfold listSwap
  cases hi : l[i]? with
  | none => exact List.Perm.refl l
  | some a =>
    cases hj : l[j]? with
    | none => exact List.Perm.refl l
    | some b =>
      obtain ⟨hi', ha⟩ := List.getElem?_eq_some_iff.mp hi
      obtain ⟨hj', hb⟩ := List.getElem?_eq_some_iff.mp hj
      have hj'' : j < (l.set i b).length := by simpa using hj'
      rw [List.perm_iff_count]
      intro x
      rw [List.count_set _ _ _ _ hj'', List.count_set _ _ _ _ hi']
      have hsetj : (l.set i b)[j] = b := by
        rw [List.getElem_set]
        split
        · rfl
        · exact hb
      rw [hsetj, ha]
      have hmem : a ∈ l := ha ▸ List.getElem_mem hi'
      by_cases hax : a = x
      · have hcount : 0 < l.count x := List.count_pos_iff.mpr (hax ▸ hmem)
        by_cases hbx : b = x <;> simp [hax, hbx] <;> omega
      · by_cases hbx : b = x <;> simp [hax, hbx]

theorem shuffleLoop_perm [DecidableEq α] (rnd : Nat → Nat) (l : List α)
    (n : Nat) : (shuffleLoop rnd l n).Perm l := by
  induction n generalizing l with
  | zero => exact List.Perm.refl l
  | succ n ih =>
      exact (ih (listSwap l (n + 1) (rnd (n + 1)))).trans
        (listSwap_perm l (n + 1) (rnd (n + 1)))

theorem shuffleArray_perm [DecidableEq α] (rnd : Nat → Nat) (l : List α) :
    (shuffleArray rnd l).Perm l :=
  shuffleLoop_perm rnd l (l.length - 1)

theorem length_applyOrder (tracks : List MediaTrack)
    (playbackType : QueuePlaybackType) (rnd : Nat → Nat) :
    (applyOrder tracks playbackType rnd).length = tracks.length := by
  cases playbackType with
  | DEFAULT => rfl
  | REVERSE => simp [applyOrder]
  | SHUFFLE => exact (shuffleArray_perm rnd tracks).length_eq

end QueueManager

/-- The transient `playbackState` pulses that the controller's queue
operations push through `emitStateChange` (PLAYBACK_STATES.TRACK_CHANGE
and PLAYBACK_STATES.QUEUE_ENDED). -/
inductive PlaybackPulse where
  | trackChange
  | queueEnded
  deriving DecidableEq, Repr

/-- The queue-related mutable fields of the `AudioHeadless` controller
(src/helpers/notifier.ts). The uninitialised `playbackQueue` of a fresh
instance is conflated with `[]`: every reading site (`?.length`,
`|| []`, `isValidArray`, `filter` guard) treats the two alike. -/
structure AudioHeadless where
  playbackQueue : List MediaTrack
  currentTrackIndex : Nat
  originalPlaybackQueue : List MediaTrack
  isShuffleEnabled : Bool
  currentLoopMode : LoopMode
  deriving DecidableEq, Repr

namespace AudioHeadless

/-- Private helper `updateCurrentTrackIndex`: first match of the track's
id in the live queue; no change when the queue is empty or the id is
absent (`index > -1` guard). -/
def updateCurrentTrackIndex (s : AudioHeadless) (track : MediaTrack) :
    AudioHeadless :=
  match s.playbackQueue.findIdx? (fun t => t.id == track.id) with
  | some index => { s with currentTrackIndex := index }
  | none => s

/-- `clearQueue()`: empties the queue, resets the index, drops the
shuffle snapshot and the shuffle flag. -/
def clearQueue (s : AudioHeadless) : AudioHeadless :=
  { s with
    playbackQueue := []
    currentTrackIndex := 0
    originalPlaybackQueue := []
    isShuffleEnabled := false }

/-- `AudioHeadless.setQueue(tracks, playbackType)`: clears the previous
queue state first; an invalid (empty) tracks array only produces a
`console.warn` and an early return, it does not throw. On the valid path
the reordered queue comes from `queueManager.setQueue` + `getQueue`
(which cannot throw here because the input was just validated), and the
`SHUFFLE` mode additionally snapshots the input and raises the shuffle
flag. -/
def setQueue (s : AudioHeadless) (tracks : List MediaTrack)
    (playbackType : QueuePlaybackType) (rnd : Nat → Nat) : AudioHeadless :=
  let cleared := s.clearQueue
  if tracks.isEmpty then
    cleared
  else
    let s₁ := { cleared with
      playbackQueue := QueueManager.applyOrder tracks playbackType rnd }
    if playbackType = QueuePlaybackType.SHUFFLE then
      { s₁ with isShuffleEnabled := true, originalPlaybackQueue := tracks }
    else
      s₁

/-- `addToQueue(tracks)`: appends; `currentTrackIndex` untouched. -/
def addToQueue (s : AudioHeadless) (tracks : List MediaTrack) :
    AudioHeadless :=
  { s with playbackQueue := s.playbackQueue ++ tracks }

/-- `removeFromQueue(trackId)`: filters out every entry with that id;
`currentTrackIndex` is not reconciled. -/
def removeFromQueue (s : AudioHeadless) (trackId : String) : AudioHeadless :=
  { s with playbackQueue := s.playbackQueue.filter (fun t => t.id != trackId) }

/-- `getQueue()` (`this.playbackQueue || []`). -/
def getQueue (s : AudioHeadless) : List MediaTrack :=
  s.playbackQueue

/-- `getCurrentTrackIndex()`. -/
def getCurrentTrackIndex (s : AudioHeadless) : Nat :=
  s.currentTrackIndex

/-- `isShuffleActive()`. -/
def isShuffleActive (s : AudioHeadless) : Bool :=
  s.isShuffleEnabled

/-- `loadTrack(track)`: throws when no track is given; otherwise resolves
`currentTrackIndex` by id lookup and emits the `trackchanged` pulse
(the sink/HLS side effects are modelled separately by `loadTrackTrace`).
The result pairs the final controller state with the emitted pulses. -/
def loadTrack (s : AudioHeadless) (track : Option MediaTrack) :
    Except String (AudioHeadless × List PlaybackPulse) :=
  match track with
  | none => Except.error "AudioHeadless: No media track provided"
  | some t => Except.ok (s.updateCurrentTrackIndex t, [PlaybackPulse.trackChange])

/-- `loadAndPlay(track)`: falls back to the first queued track when no
track is passed (`track || this.playbackQueue[0]`), throws when neither
exists, then delegates to `loadTrack`. -/
def loadAndPlay (s : AudioHeadless) (track : Option MediaTrack) :
    Except String (AudioHeadless × List PlaybackPulse) :=
  match track.orElse (fun _ => s.playbackQueue[0]?) with
  | none => Except.error "AudioHeadless: No media track available for playback"
  | some targetTrack => s.loadTrack (some targetTrack)

/-- `playNext()`: advances to `currentTrackIndex + 1` when that is still
inside the queue (`this.playbackQueue?.length > nextIndex`), assigning
`currentTrackIndex = nextIndex` after the load; otherwise stops playback
and emits the `queueended` pulse. The loop mode is not consulted. -/
def playNext (s : AudioHeadless) :
    Except String (AudioHeadless × List PlaybackPulse) :=
  let nextIndex := s.currentTrackIndex + 1
  if nextIndex < s.playbackQueue.length then
    match s.loadAndPlay s.playbackQueue[nextIndex]? with
    | Except.error e => Except.error e
    | Except.ok (s₁, pulses) =>
        Except.ok ({ s₁ with currentTrackIndex := nextIndex }, pulses)
  else
    Except.ok (s, [PlaybackPulse.queueEnded])

/-- `playPrevious()`: steps back when `currentTrackIndex - 1 ≥ 0`,
otherwise only logs ("Already at the beginning of the queue"). -/
def playPrevious (s : AudioHeadless) :
    Except String (AudioHeadless × List PlaybackPulse) :=
  if 1 ≤ s.currentTrackIndex then
    let previousIndex := s.currentTrackIndex - 1
    match s.loadAndPlay s.playbackQueue[previousIndex]? with
    | Except.error e => Except.error e
    | Except.ok (s₁, pulses) =>
        Except.ok ({ s₁ with currentTrackIndex := previousIndex }, pulses)
  else
    Except.ok (s, [])

/-- `playTrackAt(index)`: throws on an out-of-bounds index (the `< 0`
half of the TypeScript guard is subsumed by `Nat`). -/
def playTrackAt (s : AudioHeadless) (index : Nat) :
    Except String (AudioHeadless × List PlaybackPulse) :=
  if s.playbackQueue.length ≤ index then
    Except.error "AudioHeadless: Track index out of bounds"
  else
    match s.loadAndPlay s.playbackQueue[index]? with
    | Except.error e => Except.error e
    | Except.ok (s₁, pulses) =>
        Except.ok ({ s₁ with currentTrackIndex := index }, pulses)

/-- `enableShuffle(enabled)`: enabling snapshots the live queue and
re-derives a shuffled order through `queueManager.setQueue`; disabling
restores the snapshot verbatim; anything else is a no-op. Enabling on an
empty queue propagates `queueManager.setQueue`'s exception (the snapshot
assignment already performed before the throw is not observed by any
verified claim and is dropped with the error). -/
def enableShuffle (s : AudioHeadless) (enabled : Bool) (rnd : Nat → Nat) :
    Except String AudioHeadless :=
  if enabled && !s.isShuffleEnabled then
    match QueueManager.setQueue s.playbackQueue QueuePlaybackType.SHUFFLE rnd with
    | Except.error e => Except.error e
    | Except.ok shuffledQueue =>
        Except.ok { s with
          originalPlaybackQueue := s.playbackQueue
          playbackQueue := shuffledQueue
          isShuffleEnabled := true }
  else if !enabled && s.isShuffleEnabled then
    Except.ok { s with
      playbackQueue := s.originalPlaybackQueue
      isShuffleEnabled := false }
  else
    Except.ok s

/-- Observation helper: the controller state after an operation,
unchanged when the operation threw. -/
def afterOp (s : AudioHeadless)
    (r : Except String (AudioHeadless × List PlaybackPulse)) : AudioHeadless :=
  match r with
  | Except.ok p => p.1
  | Except.error _ => s

/-- Observation helper: the pulses an operation emitted (none on a
throw). -/
def pulsesOf (r : Except String (AudioHeadless × List PlaybackPulse)) :
    List PlaybackPulse :=
  match r with
  | Except.ok p => p.2
  | Except.error _ => []

/-- The queue/index invariant of the specification:
`0 ≤ currentIndex < queue.length` whenever the queue is non-empty
(the lower bound is the `Nat` type). -/
def queueInvariant (s : AudioHeadless) : Prop :=
  s.playbackQueue ≠ [] → s.currentTrackIndex < s.playbackQueue.length

instance (s : AudioHeadless) : Decidable (queueInvariant s) := by
  unfold queueInvariant
  infer_instance

end AudioHeadless

/-- The side effects `loadTrack` performs against its collaborators, in
program order (used to verify the emit-before-load ordering). -/
inductive SinkAction where
  | calcPlayedLength
  | hlsDetachMedia
  | hlsLoadMedia
  | warnNoHls
  | resetSink
  | assignSrc (source : String)
  | emitState (playbackState : String) (currentTrackPlayTime : Nat)
      (currentTrack : MediaTrack)
  | updateMetadata
  | elemLoad
  deriving DecidableEq, Repr

/-- The collaborator configuration a `loadTrack` call runs under:
native HLS support of the audio element (`canPlayType`), whether an
`HlsManager` was configured (`enableHls`) and holds a live instance,
whether a `MediaSessionManager` exists, and the play-log flag. -/
structure LoadContext where
  canPlayNativeHls : Bool
  hasHlsManager : Bool
  hasHlsInstance : Bool
  hasMediaSession : Bool
  playbackLoggingEnabled : Bool
  deriving DecidableEq, Repr

/-- `track.source.includes(".m3u8")`, via `splitOn`: a substring occurs
iff splitting on it produces more than one piece. -/
def isHlsStream (track : MediaTrack) : Bool :=
  (track.source.splitOn ".m3u8").length > 1

/-- Side effects of the private `loadHlsStream`: detach + load when the
HLS manager and its instance exist, warning + reset when the manager is
missing (and nothing when the manager exists but has no instance). -/
def loadHlsStreamTrace (ctx : LoadContext) : List SinkAction :=
  if ctx.hasHlsManager then
    if ctx.hasHlsInstance then
      [SinkAction.hlsDetachMedia, SinkAction.hlsLoadMedia]
    else
      []
  else
    [SinkAction.warnNoHls, SinkAction.resetSink]

/-- The collaborator side effects of one `loadTrack(track)` call, in
program order: optional play-log accounting, then the HLS-or-direct
source branch, then the `trackchanged` state pulse with
`currentTrackPlayTime: 0` and the new track, then the optional media
session metadata update, and finally `this.audioElement.load()`. -/
def loadTrackTrace (ctx : LoadContext) (track : MediaTrack) :
    List SinkAction :=
  (if ctx.playbackLoggingEnabled then [SinkAction.calcPlayedLength] else []) ++
  (if isHlsStream track && !ctx.canPlayNativeHls then
    loadHlsStreamTrace ctx
  else
    [SinkAction.assignSrc track.source]) ++
  [SinkAction.emitState "trackchanged" 0 track] ++
  (if ctx.hasMediaSession then [SinkAction.updateMetadata] else []) ++
  [SinkAction.elemLoad]

/-- A JSON-ish value as stored by the notifier; nesting distinguishes a
shallow merge from a deep one. -/
inductive JVal where
  | str (s : String)
  | num (n : Int)
  | obj (fields : List (String × JVal))

/-- The notifier stores plain objects (key/value records). -/
abbrev ObjVal := List (String × JVal)

/-- The object spread `{ ...old, ...data }` at the level the notifier
uses it: key-by-key override, a key of `data` replacing the whole value
stored under the same key of `old`. -/
def mergeShallow (old data : ObjVal) : ObjVal :=
  old.filter (fun p => (data.lookup p.1).isNone) ++ data

/-- Assignment `notifierState[eventName] = v` on an association-list
store. -/
def storeUpdate (st : List (String × ObjVal)) (k : String) (v : ObjVal) :
    List (String × ObjVal) :=
  match st with
  | [] => [(k, v)]
  | (k₀, v₀) :: rest =>
      if k₀ = k then (k, v) :: rest else (k₀, v₀) :: storeUpdate rest k v

/-- The module-level mutable state of src/helpers/notifier.ts:
`listeners` (per event, the registered callbacks, as identifiers in
registration order) and `notifierState` (per event, the last stored
value). -/
structure NotifierModel where
  listeners : List (String × List Nat)
  notifierState : List (String × ObjVal)

/-- `notifierState[eventName]` as read by `notify`. -/
def getStoredState (m : NotifierModel) (eventName : String) : Option ObjVal :=
  m.notifierState.lookup eventName

/-- The `for (const cb of listenerCbs) cb(...)` loop of `notify`, with no
try/catch: a throwing callback (per the environment `thr`) is invoked,
then the exception aborts the loop. Returns the invocation log (callback
id with delivered value) and whether an exception escaped. -/
def runCallbacks (thr : Nat → Bool) (cbs : List Nat) (data : ObjVal) :
    List (Nat × ObjVal) × Bool :=
  match cbs with
  | [] => ([], false)
  | c :: rest =>
      if thr c then
        ([(c, data)], true)
      else
        let r := runCallbacks thr rest data
        ((c, data) :: r.1, r.2)

/-- `notify(eventName, data)`: validates the event name (an empty name
throws before anything else happens), returns early when the event has
no listeners, treats `null` data as an explicit no-op, and otherwise
stores the shallow merge of the previous value with `data` and invokes
the listeners with the merged value. Result: new state, invocation log,
and whether an exception escaped. -/
def notify (thr : Nat → Bool) (m : NotifierModel) (eventName : String)
    (data : Option ObjVal) : NotifierModel × List (Nat × ObjVal) × Bool :=
  if eventName.isEmpty then
    (m, [], true)
  else
    match m.listeners.lookup eventName with
    | none => (m, [], false)
    | some listenerCbs =>
        match data with
        | none => (m, [], false)
        | some d =>
            let merged := mergeShallow ((getStoredState m eventName).getD []) d
            let m' := { m with
              notifierState := storeUpdate m.notifierState eventName merged }
            let r := runCallbacks thr listenerCbs merged
            (m', r.1, r.2)

/-- `getLatestState(eventName)`. -/
def getLatestState (m : NotifierModel) (eventName : String) : Option ObjVal :=
  m.notifierState.lookup eventName

namespace EventEmitter

/-- The subscriber loop of `EventEmitter.emit`: each callback runs inside
`try { ... } catch { console.error(...) }`, so a throwing callback never
stops the remaining ones; every subscriber ends up invoked with `data`. -/
def emitRun (thr : Nat → Bool) (cbs : List Nat) (data : ObjVal) :
    List (Nat × ObjVal) :=
  match cbs with
  | [] => []
  | c :: rest =>
      let _caught := thr c
      (c, data) :: emitRun thr rest data

end EventEmitter

/-- The ramp targets of the signal chain (src/lib/equalizer.ts):
`setTargetAtTime(v, now, τ)` makes the audio parameter converge to `v`,
so the post-ramp value of each `band.gain` is its recorded target.
Gains are rationals: every JavaScript number reaching the bands passes
`ValidationUtils.isValidNumber`, i.e. is finite. -/
structure Equalizer where
  filterBands : List ℚ
  bassBoostGain : ℚ
  masterGain : ℚ
  deriving DecidableEq, Repr

namespace Equalizer

/-- `Math.max(-12, Math.min(12, gainValue))`. -/
def clampGain (g : ℚ) : ℚ :=
  max (-12) (min 12 g)

/-- The equalizer right after `initializeWithAudioElement`: the ten
`EQUALIZER_BANDS` with `gain: 0`, the bass shelf at 0, master gain 1. -/
def initialized : Equalizer :=
  { filterBands := List.replicate 10 0
    bassBoostGain := 0
    masterGain := 1 }

/-- `Equalizer.setCustomEQ(gains)`: throws on an invalid (empty) array
and on a length mismatch with the band count; otherwise ramps every band
to its clamped target (the per-element `isValidNumber` guard always
passes on rationals). -/
def setCustomEQ (eq : Equalizer) (gains : List ℚ) : Except String Equalizer :=
  if gains.isEmpty then
    Except.error "Equalizer: Invalid gains array provided"
  else if gains.length ≠ eq.filterBands.length then
    Except.error "Equalizer: unexpected number of gain values"
  else
    Except.ok { eq with filterBands := gains.map clampGain }

/-- `getCurrentGains()` observed after the ~50 ms ramps settle: each
`band.gain.value` has converged to its target. -/
def getCurrentGainsPostRamp (eq : Equalizer) : List ℚ :=
  eq.filterBands

end Equalizer

theorem findIdx?_lt_length {p : α → Bool} {l : List α} {i : Nat}
    (h : l.findIdx? p = some i) : i < l.length :=
  (List.findIdx?_eq_some_iff_findIdx_eq.mp h).1

theorem lookup_storeUpdate_self (st : List (String × ObjVal)) (k : String)
    (v : ObjVal) : (storeUpdate st k v).lookup k = some v := by
  induction st with
  | nil => simp [storeUpdate]
  | cons hd tl ih =>
      obtain ⟨k₀, v₀⟩ := hd
      by_cases h : k₀ = k
      · simp [storeUpdate, h]
      · have h' : (k == k₀) = false := beq_eq_false_iff_ne.mpr (fun e => h e.symm)
        simp [storeUpdate, h, List.lookup, ih, h']

theorem runCallbacks_all_ok (thr : Nat → Bool) (cbs : List Nat) (d : ObjVal)
    (h : ∀ c ∈ cbs, thr c = false) :
    runCallbacks thr cbs d = (cbs.map (fun c => (c, d)), false) := by
  induction cbs with
  | nil => rfl
  | cons c rest ih =>
      have hc : thr c = false := h c (by simp)
      have hrest : ∀ x ∈ rest, thr x = false := fun x hx => h x (by simp [hx])
      simp [runCallbacks, hc, ih hrest]

theorem runCallbacks_delivered (thr : Nat → Bool) (cbs : List Nat)
    (d : ObjVal) : ∀ p ∈ (runCallbacks thr cbs d).1, p.2 = d := by
  induction cbs with
  | nil =>
      intro p hp
      simp [runCallbacks] at hp
  | cons c rest ih =>
      intro p hp
      by_cases hc : thr c
      · simp [runCallbacks, hc] at hp
        rw [hp]
      · simp only [runCallbacks, hc, if_false] at hp
        rcases List.mem_cons.mp hp with h | h
        · rw [h]
        · exact ih p h

theorem runCallbacks_sublist (thr : Nat → Bool) (cbs : List Nat)
    (d : ObjVal) :
    ((runCallbacks thr cbs d).1.map Prod.fst).Sublist cbs := by
  induction cbs with
  | nil => simp [runCallbacks]
  | cons c rest ih =>
      by_cases hc : thr c
      · simp only [runCallbacks, hc, if_true, List.map_cons, List.map_nil]
        exact (List.nil_sublist rest).cons₂ c
      · simp only [runCallbacks, hc, if_false, List.map_cons]
        exact ih.cons₂ c

theorem lookup_filterAbsent (old data : ObjVal) (k : String) :
    (old.filter (fun p => (data.lookup p.1).isNone)).lookup k =
      if (data.lookup k).isNone then old.lookup k else none := by
  induction old with
  | nil => simp
  | cons hd tl ih =>
      obtain ⟨k₀, v₀⟩ := hd
      by_cases hk : k = k₀
      · subst hk
        cases hdk : data.lookup k with
        | none => simp [List.filter_cons, hdk, List.lookup_cons]
        | some w => simp [List.filter_cons, hdk, ih]
      · have hbeq : (k == k₀) = false := beq_eq_false_iff_ne.mpr hk
        cases hdk₀ : data.lookup k₀ with
        | none => simp [List.filter_cons, hdk₀, List.lookup_cons, hbeq, ih]
        | some w => simp [List.filter_cons, hdk₀, ih, List.lookup_cons, hbeq]

theorem lookup_mergeShallow (old data : ObjVal) (k : String) :
    (mergeShallow old data).lookup k =
      Option.or (data.lookup k) (old.lookup k) := by
  unfold mergeShallow
  rw [List.lookup_append, lookup_filterAbsent]
  cases hdk : data.lookup k <;> simp [hdk]

namespace AudioHeadless

theorem playbackQueue_updateCurrentTrackIndex (s : AudioHeadless)
    (t : MediaTrack) :
    (s.updateCurrentTrackIndex t).playbackQueue = s.playbackQueue := by
  unfold updateCurrentTrackIndex
  cases h : s.playbackQueue.findIdx? (fun x => x.id == t.id) <;> simp [h]

theorem queueInvariant_updateCurrentTrackIndex (s : AudioHeadless)
    (t : MediaTrack) (h : queueInvariant s) :
    queueInvariant (s.updateCurrentTrackIndex t) := by
  unfold updateCurrentTrackIndex
  cases hf : s.playbackQueue.findIdx? (fun x => x.id == t.id) with
  | none => exact h
  | some i =>
      intro _
      simpa using findIdx?_lt_length hf

theorem loadAndPlay_ok {s : AudioHeadless} {t? : Option MediaTrack}
    {r : AudioHeadless × List PlaybackPulse}
    (h : s.loadAndPlay t? = Except.ok r) :
    r.1.playbackQueue = s.playbackQueue ∧
    (queueInvariant s → queueInvariant r.1) ∧
    r.2 = [PlaybackPulse.trackChange] := by
  unfold loadAndPlay at h
  cases ht : t?.orElse (fun _ => s.playbackQueue[0]?) with
  | none => rw [ht] at h; cases h
  | some tt =>
      rw [ht] at h
      unfold loadTrack at h
      injection h with h
      subst h
      exact ⟨playbackQueue_updateCurrentTrackIndex s tt,
        queueInvariant_updateCurrentTrackIndex s tt, rfl⟩

end AudioHeadless

namespace AudioHeadless

theorem loadAndPlay_some (s : AudioHeadless) (t : MediaTrack) :
    s.loadAndPlay (some t) =
      Except.ok (s.updateCurrentTrackIndex t, [PlaybackPulse.trackChange]) :=
  rfl

theorem playNext_inRange (s : AudioHeadless)
    (h : s.currentTrackIndex + 1 < s.playbackQueue.length) :
    s.playNext = Except.ok
      ({ s.updateCurrentTrackIndex (s.playbackQueue[s.currentTrackIndex + 1]) with
          currentTrackIndex := s.currentTrackIndex + 1 },
        [PlaybackPulse.trackChange]) := by
  unfold playNext
  rw [if_pos h, List.getElem?_eq_getElem h]
  rfl

theorem playNext_atEnd (s : AudioHeadless)
    (h : s.playbackQueue.length ≤ s.currentTrackIndex + 1) :
    s.playNext = Except.ok (s, [PlaybackPulse.queueEnded]) := by
  unfold playNext
  rw [if_neg (by omega)]

end AudioHeadless

/-- Track fixtures for the concrete scenarios. -/
def trackA : MediaTrack :=
  { id := "a", title := "Track A", source := "https://host/a.mp3" }

/-- Second track fixture. -/
def trackB : MediaTrack :=
  { id := "b", title := "Track B", source := "https://host/b.mp3" }

/-- Third track fixture. -/
def trackC : MediaTrack :=
  { id := "c", title := "Track C", source := "https://host/c.mp3" }

/-- Controller state of the scenario of C1: queue `[A, B]`, current index
1 (track B), loop mode QUEUE. -/
def stateAB1Queue : AudioHeadless :=
  { playbackQueue := [trackA, trackB]
    currentTrackIndex := 1
    originalPlaybackQueue := []
    isShuffleEnabled := false
    currentLoopMode := LoopMode.QUEUE }

/-- C8: for every queue length and current index, `nextIndex` leaves the
index unchanged under SINGLE; under QUEUE (for a valid current index) it
advances by one and wraps to 0 exactly at the last index; under OFF it
advances by one while in range and returns the sentinel -1 otherwise;
and `previousIndex` steps back by one while the result stays ≥ 0 and
returns -1 otherwise. -/
theorem C8_nextPrevIndex :
    ∀ (queueLength : Nat) (current : Int),
      QueueManager.getNextTrackIndex queueLength current LoopMode.SINGLE =
        current ∧
      (0 ≤ current → current < (queueLength : Int) →
        QueueManager.getNextTrackIndex queueLength current LoopMode.QUEUE =
          if current = (queueLength : Int) - 1 then 0 else current + 1) ∧
      (QueueManager.getNextTrackIndex queueLength current LoopMode.OFF =
        if current + 1 < (queueLength : Int) then current + 1 else -1) ∧
      (QueueManager.getPreviousTrackIndex current =
        if 0 ≤ current - 1 then current - 1 else -1) := by
  intro queueLength current
  refine ⟨rfl, ?_, rfl, ?_⟩
  · intro h0 hlt
    simp only [QueueManager.getNextTrackIndex]
    split <;> split <;> omega
  · unfold QueueManager.getPreviousTrackIndex
    split <;> split <;> omega

/-- Witness for C8: in a queue of length 2, QUEUE mode wraps index 1 to
0; in a queue of length 3 it advances index 1 to 2. -/
theorem C8_witness :
    QueueManager.getNextTrackIndex 2 1 LoopMode.QUEUE = 0 ∧
    QueueManager.getNextTrackIndex 3 1 LoopMode.QUEUE = 2 := by
  constructor
  · have h := (C8_nextPrevIndex 2 1).2.1 (by decide) (by decide)
    simpa using h
  · have h := (C8_nextPrevIndex 3 1).2.1 (by decide) (by decide)
    simpa using h

/-- C7: for every non-empty track list, `setQueue` stores the input
order under DEFAULT, the exact reverse under REVERSE, and under SHUFFLE
a permutation of the input (length-preserving, same multiset of ids). -/
theorem C7_setQueueOrdering :
    ∀ (tracks : List MediaTrack) (rnd : Nat → Nat),
      tracks ≠ [] →
      QueueManager.setQueue tracks QueuePlaybackType.DEFAULT rnd =
        Except.ok tracks ∧
      QueueManager.setQueue tracks QueuePlaybackType.REVERSE rnd =
        Except.ok tracks.reverse ∧
      QueueManager.setQueue tracks QueuePlaybackType.SHUFFLE rnd =
        Except.ok (QueueManager.shuffleArray rnd tracks) ∧
      (QueueManager.shuffleArray rnd tracks).Perm tracks ∧
      (QueueManager.shuffleArray rnd tracks).length = tracks.length ∧
      ((QueueManager.shuffleArray rnd tracks).map MediaTrack.id).Perm
        (tracks.map MediaTrack.id) := by
  intro tracks rnd h
  have hne : tracks.isEmpty = false := by simp [h]
  have hperm := QueueManager.shuffleArray_perm rnd tracks
  exact ⟨by simp [QueueManager.setQueue, hne, QueueManager.applyOrder],
    by simp [QueueManager.setQueue, hne, QueueManager.applyOrder],
    by simp [QueueManager.setQueue, hne, QueueManager.applyOrder],
    hperm, hperm.length_eq, hperm.map MediaTrack.id⟩

/-- Witness for C7 at the queue `[A, B]` with the constant-zero random
oracle: DEFAULT keeps `[A, B]`, REVERSE yields `[B, A]`, and the shuffled
queue is a permutation of the input. -/
theorem C7_witness :
    QueueManager.setQueue [trackA, trackB] QueuePlaybackType.DEFAULT
        (fun _ => 0) = Except.ok [trackA, trackB] ∧
    QueueManager.setQueue [trackA, trackB] QueuePlaybackType.REVERSE
        (fun _ => 0) = Except.ok [trackB, trackA] ∧
    (QueueManager.shuffleArray (fun _ => 0) [trackA, trackB]).Perm
      [trackA, trackB] := by
  have h := C7_setQueueOrdering [trackA, trackB] (fun _ => 0) (by simp)
  exact ⟨h.1, h.2.1, h.2.2.2.1⟩

/-- C1, counterexample: with queue `[A, B]`, loop mode QUEUE and current
index 1, `QueueManager.getNextTrackIndex` would wrap to 0, but
`playNext()` does not delegate to it: it leaves the index at 1 and emits
`queueended` instead of wrapping playback to track A. -/
theorem C1_counterexample :
    QueueManager.getNextTrackIndex 2 1 LoopMode.QUEUE = 0 ∧
    AudioHeadless.playNext stateAB1Queue =
      Except.ok (stateAB1Queue, [PlaybackPulse.queueEnded]) ∧
    (AudioHeadless.afterOp stateAB1Queue stateAB1Queue.playNext).currentTrackIndex
      ≠ 0 := by
  refine ⟨by decide, ?_, by decide⟩
  exact AudioHeadless.playNext_atEnd stateAB1Queue (by decide)

/-- C1 as amended: `playNext()` ignores the loop mode and QueueManager's
index arithmetic; it advances to `currentIndex + 1` exactly when that is
still inside the queue (emitting the track-change pulse), and otherwise
stops and emits `queueended` — in particular the C1 scenario ends the
queue instead of wrapping. -/
theorem C1_amended_playNext :
    ∀ (s : AudioHeadless),
      (s.currentTrackIndex + 1 < s.playbackQueue.length →
        (AudioHeadless.afterOp s s.playNext).currentTrackIndex =
            s.currentTrackIndex + 1 ∧
        (AudioHeadless.afterOp s s.playNext).playbackQueue =
            s.playbackQueue ∧
        AudioHeadless.pulsesOf s.playNext = [PlaybackPulse.trackChange]) ∧
      (s.playbackQueue.length ≤ s.currentTrackIndex + 1 →
        s.playNext = Except.ok (s, [PlaybackPulse.queueEnded])) := by
  intro s
  constructor
  · intro h
    rw [AudioHeadless.playNext_inRange s h]
    refine ⟨rfl, ?_, rfl⟩
    simpa [AudioHeadless.afterOp] using
      AudioHeadless.playbackQueue_updateCurrentTrackIndex s _
  · intro h
    exact AudioHeadless.playNext_atEnd s h

/-- Witness for C1 as amended: from queue `[A, B]` at index 0 a
`playNext()` advances to index 1 with a track-change pulse; the C1
scenario state instead ends the queue. -/
theorem C1_amended_witness :
    (AudioHeadless.afterOp
        { stateAB1Queue with currentTrackIndex := 0 }
        { stateAB1Queue with currentTrackIndex := 0 }.playNext).currentTrackIndex
      = 1 ∧
    AudioHeadless.playNext stateAB1Queue =
      Except.ok (stateAB1Queue, [PlaybackPulse.queueEnded]) := by
  constructor
  · have h := (C1_amended_playNext
      { stateAB1Queue with currentTrackIndex := 0 }).1 (by decide)
    exact h.1
  · exact (C1_amended_playNext stateAB1Queue).2 (by decide)

/-- C10: `clearQueue()` empties the queue, resets the current index to
0, turns shuffle off and drops the original-order snapshot, so a
subsequent `enableShuffle(false)` is a no-op and cannot restore any
pre-clear queue. -/
theorem C10_clearQueue :
    ∀ (s : AudioHeadless) (rnd : Nat → Nat),
      (s.clearQueue).getQueue = [] ∧
      (s.clearQueue).getCurrentTrackIndex = 0 ∧
      (s.clearQueue).isShuffleActive = false ∧
      (s.clearQueue).originalPlaybackQueue = [] ∧
      AudioHeadless.enableShuffle s.clearQueue false rnd =
        Except.ok s.clearQueue := by
  intro s rnd
  refine ⟨rfl, rfl, rfl, rfl, ?_⟩
  simp [AudioHeadless.enableShuffle, AudioHeadless.clearQueue]

/-- Pre-state of the C3 counterexample: a live one-track queue with a
shuffle snapshot. -/
def stateA0Shuffle : AudioHeadless :=
  { playbackQueue := [trackA]
    currentTrackIndex := 0
    originalPlaybackQueue := [trackA]
    isShuffleEnabled := true
    currentLoopMode := LoopMode.OFF }

/-- C3, counterexample: on the controller, `setQueue([])` does not leave
the previously held queue state unchanged — the call clears the queue
and the shuffle snapshot before validating, and returns with only a
warning. -/
theorem C3_counterexample :
    (AudioHeadless.setQueue stateA0Shuffle [] QueuePlaybackType.DEFAULT
        (fun _ => 0)).playbackQueue ≠ stateA0Shuffle.playbackQueue ∧
    (AudioHeadless.setQueue stateA0Shuffle [] QueuePlaybackType.DEFAULT
        (fun _ => 0)).originalPlaybackQueue ≠
      stateA0Shuffle.originalPlaybackQueue := by
  decide

/-- C3 as amended: `QueueManager.setQueue` does fail synchronously on an
empty track list (leaving its caller's state alone), but
`AudioHeadless.setQueue` never throws: it first clears the whole queue
state (queue, index, shuffle snapshot) and on invalid input merely warns
and returns, so the previous queue state is lost, not preserved. -/
theorem C3_amended_setQueueInvalid :
    ∀ (s : AudioHeadless) (playbackType : QueuePlaybackType)
      (rnd : Nat → Nat),
      QueueManager.setQueue [] playbackType rnd =
        Except.error "QueueManager: Invalid tracks array provided" ∧
      AudioHeadless.setQueue s [] playbackType rnd = s.clearQueue := by
  intro s playbackType rnd
  exact ⟨rfl, rfl⟩

namespace AudioHeadless

theorem queueInvariant_clearQueue (s : AudioHeadless) :
    queueInvariant s.clearQueue :=
  fun h => absurd rfl h

theorem queueInvariant_setQueue (s : AudioHeadless) (tracks : List MediaTrack)
    (playbackType : QueuePlaybackType) (rnd : Nat → Nat) :
    queueInvariant (s.setQueue tracks playbackType rnd) := by
  cases he : tracks.isEmpty with
  | true =>
      have heq : s.setQueue tracks playbackType rnd = s.clearQueue := by
        simp [setQueue, he]
      rw [heq]
      exact queueInvariant_clearQueue s
  | false =>
      have hlen : 0 <
          (QueueManager.applyOrder tracks playbackType rnd).length := by
        rw [QueueManager.length_applyOrder]
        exact List.length_pos.mpr (by simpa using he)
      intro _
      by_cases hp : playbackType = QueuePlaybackType.SHUFFLE
      · simp [setQueue, he, hp]
        simpa [hp, QueueManager.applyOrder] using hlen
      · simp [setQueue, he, hp]
        simpa using hlen

theorem queueInvariant_addToQueue (s : AudioHeadless)
    (tracks : List MediaTrack) (h : queueInvariant s)
    (h0 : s.playbackQueue ≠ [] ∨ s.currentTrackIndex = 0) :
    queueInvariant (s.addToQueue tracks) := by
  intro hne
  simp only [addToQueue, List.length_append] at hne ⊢
  rcases h0 with hq | hidx
  · have := h hq
    omega
  · rw [hidx]
    have hpos : 0 < (s.playbackQueue ++ tracks).length :=
      List.length_pos.mpr (by simpa using hne)
    simpa using hpos

theorem queueInvariant_loadTrack (s : AudioHeadless)
    (track? : Option MediaTrack) (h : queueInvariant s) :
    queueInvariant (afterOp s (s.loadTrack track?)) := by
  cases track? with
  | none => exact h
  | some t => exact queueInvariant_updateCurrentTrackIndex s t h

theorem queueInvariant_playNext (s : AudioHeadless) (h : queueInvariant s) :
    queueInvariant (afterOp s s.playNext) := by
  by_cases hlt : s.currentTrackIndex + 1 < s.playbackQueue.length
  · rw [playNext_inRange s hlt]
    intro _
    have hq := playbackQueue_updateCurrentTrackIndex s
      (s.playbackQueue[s.currentTrackIndex + 1])
    simp only [afterOp, hq]
    omega
  · rw [playNext_atEnd s (by omega)]
    exact h

theorem queueInvariant_playPrevious (s : AudioHeadless)
    (h : queueInvariant s) : queueInvariant (afterOp s s.playPrevious) := by
  unfold playPrevious
  by_cases h1 : 1 ≤ s.currentTrackIndex
  · rw [if_pos h1]
    cases hl : s.loadAndPlay s.playbackQueue[s.currentTrackIndex - 1]? with
    | error e =>
        simp only [hl, afterOp]
        exact h
    | ok r =>
        obtain ⟨s₁, pulses⟩ := r
        obtain ⟨hq, _, _⟩ := loadAndPlay_ok hl
        simp only [hl, afterOp]
        intro hne
        simp only at hq
        simp only [hq] at hne ⊢
        have := h hne
        omega
  · rw [if_neg h1]
    exact h

theorem queueInvariant_playTrackAt (s : AudioHeadless) (i : Nat)
    (h : queueInvariant s) : queueInvariant (afterOp s (s.playTrackAt i)) := by
  unfold playTrackAt
  by_cases hg : s.playbackQueue.length ≤ i
  · rw [if_pos hg]
    exact h
  · rw [if_neg hg]
    have hi : i < s.playbackQueue.length := by omega
    rw [List.getElem?_eq_getElem hi, loadAndPlay_some]
    intro _
    have hq := playbackQueue_updateCurrentTrackIndex s (s.playbackQueue[i])
    simp only [afterOp, hq]
    omega

end AudioHeadless

/-- Pre-state of the C2 counterexample and witness: queue `[A, B]` at
index 1, which satisfies the queue/index invariant. -/
def stateAB1Off : AudioHeadless :=
  { playbackQueue := [trackA, trackB]
    currentTrackIndex := 1
    originalPlaybackQueue := []
    isShuffleEnabled := false
    currentLoopMode := LoopMode.OFF }

/-- C2, counterexample: from the invariant-satisfying state with queue
`[A, B]` and current index 1, `removeFromQueue("b")` leaves the
non-empty queue `[A]` with current index still 1 — out of bounds, so the
invariant is not preserved by `removeFromQueue`. -/
theorem C2_counterexample :
    AudioHeadless.queueInvariant stateAB1Off ∧
    (stateAB1Off.removeFromQueue "b").playbackQueue ≠ [] ∧
    ¬ AudioHeadless.queueInvariant (stateAB1Off.removeFromQueue "b") := by
  decide

/-- C2 as amended: the invariant `currentIndex < queue.length` (on a
non-empty queue) is preserved by `setQueue`, `clearQueue`, `loadTrack`,
`playNext`, `playPrevious` and `playTrackAt` unconditionally, and by
`addToQueue` whenever the queue was non-empty or the index was 0; it is
not preserved by `removeFromQueue`, which never reconciles
`currentTrackIndex` (see the counterexample). -/
theorem C2_amended_invariantPreservation :
    ∀ (s : AudioHeadless) (tracks : List MediaTrack)
      (track? : Option MediaTrack) (playbackType : QueuePlaybackType)
      (rnd : Nat → Nat) (i : Nat),
      AudioHeadless.queueInvariant s →
      AudioHeadless.queueInvariant (s.setQueue tracks playbackType rnd) ∧
      ((s.playbackQueue ≠ [] ∨ s.currentTrackIndex = 0) →
        AudioHeadless.queueInvariant (s.addToQueue tracks)) ∧
      AudioHeadless.queueInvariant s.clearQueue ∧
      AudioHeadless.queueInvariant
        (AudioHeadless.afterOp s (s.loadTrack track?)) ∧
      AudioHeadless.queueInvariant (AudioHeadless.afterOp s s.playNext) ∧
      AudioHeadless.queueInvariant (AudioHeadless.afterOp s s.playPrevious) ∧
      AudioHeadless.queueInvariant
        (AudioHeadless.afterOp s (s.playTrackAt i)) := by
  intro s tracks track? playbackType rnd i h
  exact ⟨AudioHeadless.queueInvariant_setQueue s tracks playbackType rnd,
    AudioHeadless.queueInvariant_addToQueue s tracks h,
    AudioHeadless.queueInvariant_clearQueue s,
    AudioHeadless.queueInvariant_loadTrack s track? h,
    AudioHeadless.queueInvariant_playNext s h,
    AudioHeadless.queueInvariant_playPrevious s h,
    AudioHeadless.queueInvariant_playTrackAt s i h⟩

/-- Witness for C2 as amended, at the state with queue `[A, B]` and
index 1. -/
theorem C2_amended_witness :
    AudioHeadless.queueInvariant
      (stateAB1Off.setQueue [trackC] QueuePlaybackType.DEFAULT
        (fun _ => 0)) ∧
    AudioHeadless.queueInvariant (stateAB1Off.addToQueue [trackC]) ∧
    AudioHeadless.queueInvariant stateAB1Off.clearQueue ∧
    AudioHeadless.queueInvariant
      (AudioHeadless.afterOp stateAB1Off (stateAB1Off.loadTrack
        (some trackA))) ∧
    AudioHeadless.queueInvariant
      (AudioHeadless.afterOp stateAB1Off stateAB1Off.playNext) ∧
    AudioHeadless.queueInvariant
      (AudioHeadless.afterOp stateAB1Off stateAB1Off.playPrevious) ∧
    AudioHeadless.queueInvariant
      (AudioHeadless.afterOp stateAB1Off (stateAB1Off.playTrackAt 0)) := by
  have h := C2_amended_invariantPreservation stateAB1Off [trackC]
    (some trackA) QueuePlaybackType.DEFAULT (fun _ => 0) 0 (by decide)
  exact ⟨h.1, h.2.1 (Or.inl (by decide)), h.2.2.1, h.2.2.2.1,
    h.2.2.2.2.1, h.2.2.2.2.2.1, h.2.2.2.2.2.2⟩

theorem elemLoad_not_mem_logPart (c : Bool) :
    SinkAction.elemLoad ∉
      (if c then [SinkAction.calcPlayedLength] else []) := by
  cases c <;> simp

theorem elemLoad_not_mem_srcPart (ctx : LoadContext) (track : MediaTrack) :
    SinkAction.elemLoad ∉
      (if isHlsStream track && !ctx.canPlayNativeHls then
        loadHlsStreamTrace ctx
      else
        [SinkAction.assignSrc track.source]) := by
  split
  · unfold loadHlsStreamTrace
    split
    · split <;> simp
    · simp
  · simp

/-- C6: in every configuration (HLS or direct source, with or without an
HLS manager, media session, play log), the `trackchanged` pulse with
play time 0 and the new current track is emitted strictly before the
sink's `load()` primitive is invoked: the trace splits around the pulse
with no `load()` before it and the `load()` after it. -/
theorem C6_trackChangeBeforeLoad :
    ∀ (ctx : LoadContext) (track : MediaTrack),
      ∃ pre post,
        loadTrackTrace ctx track =
          pre ++ SinkAction.emitState "trackchanged" 0 track :: post ∧
        SinkAction.elemLoad ∉ pre ∧
        SinkAction.elemLoad ∈ post := by
  intro ctx track
  refine ⟨(if ctx.playbackLoggingEnabled then [SinkAction.calcPlayedLength]
      else []) ++
      (if isHlsStream track && !ctx.canPlayNativeHls then
        loadHlsStreamTrace ctx
      else
        [SinkAction.assignSrc track.source]),
    (if ctx.hasMediaSession then [SinkAction.updateMetadata] else []) ++
      [SinkAction.elemLoad], ?_, ?_, ?_⟩
  · simp [loadTrackTrace]
  · intro hmem
    rcases List.mem_append.mp hmem with h | h
    · exact elemLoad_not_mem_logPart _ h
    · exact elemLoad_not_mem_srcPart ctx track h
  · simp

/-- C4, counterexample: publishing to a key that has no subscribers
returns before storing anything, so `getLatest` does not return the
merged value ("for every key" fails on unsubscribed keys). -/
theorem C4_counterexample :
    (notify (fun _ => false)
        { listeners := [], notifierState := [] } "k"
        (some [("x", JVal.num 1)])).1.notifierState = [] ∧
    getLatestState (notify (fun _ => false)
        { listeners := [], notifierState := [] } "k"
        (some [("x", JVal.num 1)])).1 "k" ≠
      some (mergeShallow [] [("x", JVal.num 1)]) := by
  refine ⟨rfl, ?_⟩
  have hnone : getLatestState (notify (fun _ => false)
      { listeners := [], notifierState := [] } "k"
      (some [("x", JVal.num 1)])).1 "k" = none := rfl
  simp [hnone]

/-- C4 as amended: provided the key has at least one registered
subscriber set (so `notify` does not return early), publishing non-null
data always stores the shallow merge of the previous value with the
partial data — the store precedes the callback loop, so a later
`getLatest` returns the merged value even when a subscriber throws;
every invocation the loop does perform delivers exactly the merged
value, the invoked callbacks form an in-order sub-sequence of the
registered ones (none invoked twice), and in the non-throwing cases
every registered subscriber is invoked exactly once with the merged
value and no exception escapes. The merge is key-by-key override (a key
of the partial data replaces the whole stored entry, a key absent from
it keeps the stored entry). -/
theorem C4_amended_publish :
    ∀ (thr : Nat → Bool) (m : NotifierModel) (key : String)
      (cbs : List Nat) (d : ObjVal),
      key.isEmpty = false →
      m.listeners.lookup key = some cbs →
      getLatestState (notify thr m key (some d)).1 key =
        some (mergeShallow ((getStoredState m key).getD []) d) ∧
      (∀ p ∈ (notify thr m key (some d)).2.1,
        p.2 = mergeShallow ((getStoredState m key).getD []) d) ∧
      ((notify thr m key (some d)).2.1.map Prod.fst).Sublist cbs ∧
      ((∀ c ∈ cbs, thr c = false) →
        (notify thr m key (some d)).2.1 =
          cbs.map (fun c =>
            (c, mergeShallow ((getStoredState m key).getD []) d)) ∧
        (notify thr m key (some d)).2.2 = false) ∧
      (∀ fieldKey,
        (mergeShallow ((getStoredState m key).getD []) d).lookup fieldKey =
          Option.or (d.lookup fieldKey)
            (((getStoredState m key).getD []).lookup fieldKey)) := by
  intro thr m key cbs d hk hl
  refine ⟨?_, ?_, ?_, ?_, ?_⟩
  · simp [notify, hk, hl, getLatestState, lookup_storeUpdate_self]
  · intro p hp
    refine runCallbacks_delivered thr cbs
      (mergeShallow ((getStoredState m key).getD []) d) p ?_
    simpa [notify, hk, hl] using hp
  · have hsub := runCallbacks_sublist thr cbs
      (mergeShallow ((getStoredState m key).getD []) d)
    simpa [notify, hk, hl] using hsub
  · intro hno
    have hrun := runCallbacks_all_ok thr cbs
      (mergeShallow ((getStoredState m key).getD []) d) hno
    constructor
    · simp [notify, hk, hl, hrun]
    · simp [notify, hk, hl, hrun]
  · intro fieldKey
    exact lookup_mergeShallow _ d fieldKey

/-- Notifier fixture for the C4 witness: two subscribers on "k" and a
stored value with keys "a" and "b". -/
def notifierFixture : NotifierModel :=
  { listeners := [("k", [0, 1])]
    notifierState := [("k", [("a", JVal.num 1), ("b", JVal.num 2)])] }

/-- Partial update published in the C4 witness: overrides "b", adds "c". -/
def publishData : ObjVal :=
  [("b", JVal.num 9), ("c", JVal.num 3)]

/-- Witness for C4 as amended: publishing `{b: 9, c: 3}` over stored
`{a: 1, b: 2}` stores `{a: 1, b: 9, c: 3}` and delivers it to both
subscribers. -/
theorem C4_amended_witness :
    getLatestState
        (notify (fun _ => false) notifierFixture "k" (some publishData)).1
        "k" =
      some [("a", JVal.num 1), ("b", JVal.num 9), ("c", JVal.num 3)] ∧
    (notify (fun _ => false) notifierFixture "k" (some publishData)).2.1 =
      [(0, [("a", JVal.num 1), ("b", JVal.num 9), ("c", JVal.num 3)]),
       (1, [("a", JVal.num 1), ("b", JVal.num 9), ("c", JVal.num 3)])] := by
  have h := C4_amended_publish (fun _ => false) notifierFixture "k" [0, 1]
    publishData rfl rfl
  exact ⟨h.1.trans rfl, ((h.2.2.2.1 (fun c _ => rfl)).1).trans rfl⟩

/-- Notifier fixture for the C5 counterexample: two subscribers on "k",
no stored value. -/
def notifierTwoSubs : NotifierModel :=
  { listeners := [("k", [0, 1])]
    notifierState := [] }

/-- Callback environment in which subscriber 0 throws. -/
def throwingFirst : Nat → Bool :=
  fun c => c == 0

/-- C5, counterexample: in `notify` (the publish path of the notifier),
subscriber 0 throwing aborts the un-guarded `for...of` loop: the
invocation log is exactly `[(0, value)]`, subscriber 1 is never invoked,
and the exception escapes. -/
theorem C5_counterexample :
    (notify throwingFirst notifierTwoSubs "k"
        (some [("x", JVal.num 1)])).2.1 = [(0, [("x", JVal.num 1)])] ∧
    (1, ([("x", JVal.num 1)] : ObjVal)) ∉
      (notify throwingFirst notifierTwoSubs "k"
        (some [("x", JVal.num 1)])).2.1 ∧
    (notify throwingFirst notifierTwoSubs "k"
        (some [("x", JVal.num 1)])).2.2 = true := by
  have hlog : (notify throwingFirst notifierTwoSubs "k"
      (some [("x", JVal.num 1)])).2.1 = [(0, [("x", JVal.num 1)])] := rfl
  refine ⟨hlog, ?_, rfl⟩
  rw [hlog]
  simp

/-- C5 as amended: the per-callback isolation holds in
`EventEmitter.emit` (each callback runs in its own try/catch), where
every registered subscriber is invoked with the published value even
when earlier ones throw; it does not hold in the notifier's `notify`
(see the counterexample). -/
theorem C5_amended_emitIsolation :
    ∀ (thr : Nat → Bool) (cbs : List Nat) (data : ObjVal) (c : Nat),
      c ∈ cbs → (c, data) ∈ EventEmitter.emitRun thr cbs data := by
  intro thr cbs data c
  induction cbs with
  | nil => intro hc; cases hc
  | cons c₀ rest ih =>
      intro hc
      simp only [EventEmitter.emitRun]
      rcases List.mem_cons.mp hc with h | h
      · subst h
        exact List.mem_cons_self _ _
      · exact List.mem_cons_of_mem _ (ih h)

/-- Witness for C5 as amended: with the same environment in which
subscriber 0 throws, `EventEmitter.emit` still invokes subscriber 1. -/
theorem C5_amended_witness :
    (1, ([("x", JVal.num 1)] : ObjVal)) ∈
      EventEmitter.emitRun throwingFirst [0, 1] [("x", JVal.num 1)] :=
  C5_amended_emitIsolation throwingFirst [0, 1] [("x", JVal.num 1)] 1
    (by simp)

/-- C9: on an equalizer with its ten bands, `setCustomEQ` fails on a
gain vector whose length is not 10; on a length-10 vector it succeeds,
every band's ramp target becomes the clamp of the requested value to
[-12, 12] (so the post-ramp `getCurrentGains()` is exactly the clamped
vector), and a vector already inside [-12, 12] is applied verbatim —
out-of-range values are clamped, never rejected. -/
theorem C9_setCustomEqualizer :
    ∀ (eq : Equalizer) (gains : List ℚ),
      eq.filterBands.length = 10 →
      (gains.length ≠ 10 → (eq.setCustomEQ gains).isOk = false) ∧
      (gains.length = 10 →
        eq.setCustomEQ gains =
          Except.ok { eq with filterBands := gains.map Equalizer.clampGain } ∧
        ({ eq with filterBands := gains.map Equalizer.clampGain } :
            Equalizer).getCurrentGainsPostRamp =
          gains.map Equalizer.clampGain ∧
        ((∀ g ∈ gains, -12 ≤ g ∧ g ≤ 12) →
          gains.map Equalizer.clampGain = gains)) := by
  intro eq gains hbands
  constructor
  · intro hlen
    by_cases hemp : gains.isEmpty
    · simp [Equalizer.setCustomEQ, hemp, Except.isOk, Except.toBool]
    · simp [Equalizer.setCustomEQ, hemp, hbands, hlen, Except.isOk,
        Except.toBool]
  · intro hlen
    have hne : gains ≠ [] := by
      intro h
      rw [h] at hlen
      simp at hlen
    have hemp : gains.isEmpty = false := by simpa using hne
    refine ⟨?_, rfl, ?_⟩
    · simp [Equalizer.setCustomEQ, hemp, hbands, hlen]
    · intro hin
      have hfix : ∀ g ∈ gains, Equalizer.clampGain g = g := by
        intro g hg
        obtain ⟨h1, h2⟩ := hin g hg
        unfold Equalizer.clampGain
        rw [min_eq_right h2, max_eq_right h1]
      have hmap := List.map_congr_left (g := fun g => g) hfix
      simpa using hmap

/-- Witness for C9: on the freshly initialized equalizer, the vector
`[13, -20, 0, 1, 2, 3, 4, 5, 6, 7]` is accepted with 13 clamped to 12
and -20 to -12, while a length-4 vector is rejected. -/
theorem C9_witness :
    Equalizer.initialized.setCustomEQ [13, -20, 0, 1, 2, 3, 4, 5, 6, 7] =
      Except.ok { Equalizer.initialized with
        filterBands := [12, -12, 0, 1, 2, 3, 4, 5, 6, 7] } ∧
    (Equalizer.initialized.setCustomEQ [0, 1, 2, 3]).isOk = false := by
  constructor
  · have h := (C9_setCustomEqualizer Equalizer.initialized
      [13, -20, 0, 1, 2, 3, 4, 5, 6, 7] (by rfl)).2 (by rfl)
    rw [h.1]
    norm_num [Equalizer.clampGain]
  · exact (C9_setCustomEqualizer Equalizer.initialized [0, 1, 2, 3]
      (by rfl)).1 (by decide)
